import Mathlib

/-
Verification of the branching form engine and dynamic table widget of the
Web-Form repository.  The definitions below are shallow embeddings of the
JavaScript source:

  * src/DynamicForm.js          (class DynamicForm: renderRow, handleBranching,
                                 handleSubmit, setFormData, setFieldValue)
  * src/unnamed/part_001        (class DynamicFormField: addTableRow, the delete
                                 button handler, filterTable, updatePagination,
                                 createPaginationControls, exportToCsv,
                                 importCsv, getValue)

DOM state is made explicit: the map from field id to live FieldModel becomes an
insertion-ordered association list (JS Map semantics), a table row's
style.display toggling becomes a filteredOut flag, the d-none pagination class
becomes a pageHidden flag, and tbody.dataset.currentPage / rowsPerPage become
fields of the table state.
-/

namespace WebForm

/-- A branch condition value is either a scalar or an array of scalars
(src/DynamicForm.js uses Array.isArray to distinguish them); scalars coming
from DOM inputs are strings. -/
inductive CondValue where
  | scalar (s : String)
  | seq (l : List String)
deriving DecidableEq

/-- BranchCondition from the row-configuration schema: fieldId, value,
optional operator (only "or" is ever tested by the code), nextRow, and the
optional defaultBranch flag (absent means false). -/
structure BranchCondition where
  fieldId : String
  value : CondValue
  operator : Option String
  nextRow : Nat
  defaultBranch : Bool
deriving DecidableEq

/-- Field kinds relevant to the branching engine: radio and select drive
branching, text stands for the remaining plain scalar inputs. -/
inductive FieldKind where
  | radio
  | select
  | text
deriving DecidableEq

/-- FieldConfig restricted to what the branching claims exercise: the unique
field id, the kind, and the option values (for radio/select). -/
structure FieldConfig where
  id : String
  kind : FieldKind
  options : List String
deriving DecidableEq

/-- RowConfig: stable id, ordered fields, optional branchConditions.  The
branchConditions field is an Option so that an absent (undefined) list can be
told apart from a present empty list: handleBranching records branch history
whenever the property is present (a JS array is truthy even when empty). -/
structure RowConfig where
  id : Nat
  fields : List FieldConfig
  branchConditions : Option (List BranchCondition)
deriving DecidableEq

/-- Per-condition test of src/DynamicForm.js lines 94-105: an array value is
decided by the operator ("or" means membership, anything else means the
degenerate every-element-equals test); otherwise a condition carrying
defaultBranch short-circuits to true; otherwise scalar strict equality. -/
def condShouldBranch (c : BranchCondition) (value : String) : Bool :=
  match c.value with
  | CondValue.seq l =>
      if c.operator == some "or" then l.contains value
      else l.all (fun v => v == value)
  | CondValue.scalar s =>
      if c.defaultBranch then true else s == value

/-- The branch decision of handleBranching (src/DynamicForm.js lines 82-120):
find the defaultBranch condition for the controlling field, scan all
conditions in declaration order taking the first whose fieldId matches and
whose test fires, otherwise fall back to the defaultBranch condition, and
finally to rowConfig.id + 1. -/
def decideNextRow (rc : RowConfig) (fid : String) (value : String) : Nat :=
  match rc.branchConditions with
  | none => rc.id + 1
  | some conds =>
      let defaultBranch :=
        conds.find? (fun c => c.fieldId == fid && c.defaultBranch)
      match conds.find? (fun c => c.fieldId == fid && condShouldBranch c value) with
      | some c => c.nextRow
      | none =>
          match defaultBranch with
          | some d => d.nextRow
          | none => rc.id + 1

/-- Per-condition match as worded by the specification: a sequence value
matches under operator "or" iff the raw value is a member and under
"and"/default iff the raw value equals every element; a scalar value matches
iff equal, except that a defaultBranch condition (whose scalar test is never
explicitly consulted) matches unconditionally. -/
def specMatches (c : BranchCondition) (value : String) : Bool :=
  match c.value with
  | CondValue.seq l =>
      if c.operator == some "or" then l.contains value
      else l.all (fun v => v == value)
  | CondValue.scalar s => s == value || c.defaultBranch

/-- The branch decision as the specification words it: consider only the
conditions whose fieldId equals the controlling field id, in declaration
order; the first matching one wins; else the defaultBranch condition for this
field; else rowConfig.id + 1. -/
def decideSpec (rc : RowConfig) (fid : String) (value : String) : Nat :=
  let conds := (rc.branchConditions.getD []).filter (fun c => c.fieldId == fid)
  match conds.find? (fun c => specMatches c value) with
  | some c => c.nextRow
  | none =>
      match conds.find? (fun c => c.defaultBranch) with
      | some d => d.nextRow
      | none => rc.id + 1

/-! Form session state (src/DynamicForm.js).  The fields map is the JS Map
this.fields: insertion-ordered, set replaces in place, keys are field ids.
branchHistory is the plain object this.branchHistory keyed by row id. -/

/-- Live state of one FieldModel, as far as the engine observes it: the
configuration, the checked radio value (none while no radio is checked) and
the current DOM value of a text input or select (a fresh select shows the
placeholder option whose value is ""). -/
structure FieldState where
  cfg : FieldConfig
  checkedVal : Option String
  domValue : String
deriving DecidableEq

/-- A freshly rendered FieldModel: nothing checked, empty DOM value. -/
def FieldState.fresh (cfg : FieldConfig) : FieldState :=
  { cfg := cfg, checkedVal := none, domValue := "" }

/-- getValue of DynamicFormField for non-table kinds: it reads
element.querySelector("input, select, textarea").value.  For a radio group
that selector returns the FIRST radio input of the group, whose value
attribute is the first option value regardless of which input is checked
(null when the group has no options, hence no input); for select and text it
returns the element's current value. -/
def FieldState.getValue (fs : FieldState) : Option String :=
  match fs.cfg.kind with
  | FieldKind.radio => fs.cfg.options.head?
  | FieldKind.select => some fs.domValue
  | FieldKind.text => some fs.domValue

/-- JS Map.set: replace the value in place when the key exists (keeping its
insertion position), otherwise append. -/
def mapSet {α β : Type} [DecidableEq α] (m : List (α × β)) (k : α) (v : β) :
    List (α × β) :=
  match m with
  | [] => [(k, v)]
  | (k0, v0) :: t => if k0 = k then (k, v) :: t else (k0, v0) :: mapSet t k v

/-- Update the value stored under a key when present; no-op when absent
(mirrors the code pattern: const field = this.fields.get(id); if (field) …). -/
def mapUpdate {α β : Type} [DecidableEq α] (m : List (α × β)) (k : α)
    (f : β → β) : List (α × β) :=
  match m with
  | [] => []
  | (k0, v0) :: t =>
      if k0 = k then (k0, f v0) :: t else (k0, v0) :: mapUpdate t k f

/-- FormState: this.currentRows (array indices of the rendered rows, in
order), this.fields (field id to FieldModel), this.branchHistory. -/
structure FormState where
  currentRows : List Nat
  fields : List (String × FieldState)
  branchHistory : List (Nat × Nat)
deriving DecidableEq

/-- renderRow (src/DynamicForm.js lines 35-67): looks the row up at ARRAY
POSITION rowIndex (this.rows[rowIndex]); returns unchanged when undefined;
otherwise instantiates a fresh FieldModel for every field of the row
(this.fields.set) and pushes rowIndex onto currentRows. -/
def renderRow (rows : List RowConfig) (rowIndex : Nat) (s : FormState) :
    FormState :=
  match rows.get? rowIndex with
  | none => s
  | some rc =>
      { s with
        fields := rc.fields.foldl
          (fun fs fc => mapSet fs fc.id (FieldState.fresh fc)) s.fields,
        currentRows := s.currentRows ++ [rowIndex] }

/-- handleBranching (src/DynamicForm.js lines 69-142): locate the owning row
in currentRows by its id, compute the intended branch row, record it in
branchHistory whenever branchConditions is present, stop if the next rendered
row already is the intended one, otherwise truncate currentRows (the removed
rows' DOM elements disappear but this.fields is untouched) and render the
intended row when its array position is in range. -/
def handleBranching (rows : List RowConfig) (rc : RowConfig) (fc : FieldConfig)
    (value : String) (s : FormState) : FormState :=
  match s.currentRows.findIdx? (fun rowId => rowId == rc.id) with
  | none => s
  | some currentIndex =>
      let intended := decideNextRow rc fc.id value
      let s1 :=
        if rc.branchConditions.isSome then
          { s with branchHistory := mapSet s.branchHistory rc.id intended }
        else s
      if s1.currentRows.get? (currentIndex + 1) = some intended then s1
      else
        let s2 := { s1 with currentRows := s1.currentRows.take (currentIndex + 1) }
        if intended < rows.length then renderRow rows intended s2 else s2

/-- A user click on a radio option: the input becomes checked, then the
change listener fires handleBranching with the input's value. -/
def selectRadio (rows : List RowConfig) (rc : RowConfig) (fc : FieldConfig)
    (value : String) (s : FormState) : FormState :=
  let fields := mapUpdate s.fields fc.id
    (fun fs => { fs with checkedVal := some value })
  handleBranching rows rc fc value { s with fields := fields }

/-- A user change of a select: the select's value updates, then the change
listener fires handleBranching with it. -/
def selectOption (rows : List RowConfig) (rc : RowConfig) (fc : FieldConfig)
    (value : String) (s : FormState) : FormState :=
  let fields := mapUpdate s.fields fc.id
    (fun fs => { fs with domValue := value })
  handleBranching rows rc fc value { s with fields := fields }

/-- Typing into a plain input: only the DOM value changes; no branching
listener is attached to non radio/select fields. -/
def textInput (fieldId : String) (value : String) (s : FormState) : FormState :=
  let fields := mapUpdate s.fields fieldId
    (fun fs => { fs with domValue := value })
  { s with fields := fields }

/-- The change handler wired by renderRow, dispatched on the field kind. -/
def changeEvent (rows : List RowConfig) (rc : RowConfig) (fc : FieldConfig)
    (value : String) (s : FormState) : FormState :=
  match fc.kind with
  | FieldKind.radio => selectRadio rows rc fc value s
  | FieldKind.select => selectOption rows rc fc value s
  | FieldKind.text => textInput fc.id value s

/-- render() (src/DynamicForm.js lines 10-33) starts every session by
rendering row 0 into the empty state. -/
def initForm (rows : List RowConfig) : FormState :=
  renderRow rows 0 { currentRows := [], fields := [], branchHistory := [] }

/-- The value bag built by handleSubmit: one entry per live FieldModel in
insertion order (none encodes a null extraction), plus the branch history
that the code appends under the reserved branchHistory key. -/
structure Bag where
  entries : List (String × Option String)
  branchHistory : List (Nat × Nat)
deriving DecidableEq

/-- handleSubmit (src/DynamicForm.js lines 144-160): walk this.fields in
insertion order calling getValue, then append the stringified branch
history. -/
def handleSubmit (s : FormState) : Bag :=
  { entries := s.fields.map (fun p => (p.1, p.2.getValue)),
    branchHistory := s.branchHistory }

/-- The keys present in the submitted form data object. -/
def bagKeys (b : Bag) : List String :=
  b.entries.map Prod.fst ++ ["branchHistory"]

/-- setFieldValue (src/DynamicForm.js lines 209-264) for the embedded kinds:
radio checks the input whose value attribute matches (no-op otherwise),
select and text assign input.value (a null assignment yields the empty
string). -/
def setFieldValue (fs : FieldState) (v : Option String) : FieldState :=
  match fs.cfg.kind with
  | FieldKind.radio =>
      match v with
      | some sv =>
          if fs.cfg.options.contains sv then { fs with checkedVal := some sv }
          else fs
      | none => fs
  | _ => { fs with domValue := v.getD "" }

/-- One pass of the population loops of setFormData: for every field of the
row, when the field is live and the bag defines a value for it, apply
setFieldValue. -/
def setRowValues (data : Bag) (rc : RowConfig) (s : FormState) : FormState :=
  rc.fields.foldl
    (fun st fc =>
      match data.entries.lookup fc.id with
      | some v =>
          let fields := mapUpdate st.fields fc.id (fun fs => setFieldValue fs v)
          { st with fields := fields }
      | none => st) s

/-- Whether a field kind can drive branching (radio or select). -/
def isControlling (fc : FieldConfig) : Bool :=
  match fc.kind with
  | FieldKind.radio => true
  | FieldKind.select => true
  | FieldKind.text => false

/-- JS truthiness of a possibly-absent bag value: present, non-null and not
the empty string. -/
def truthyString : Option (Option String) → Option String
  | some (some v) => if v = "" then none else some v
  | _ => none

/-- setFormData (src/DynamicForm.js lines 163-206): truncate currentRows to
its first element (removing the other rows' DOM elements), set row-0 field
values from the bag, then for every radio/select field of ROW 0 whose bag
value is truthy run handleBranching and set values for the rows now in view.
Controlling fields of later rows are never re-triggered. -/
def setFormData (rows : List RowConfig) (data : Bag) (s : FormState) :
    FormState :=
  let s0 := { s with currentRows := s.currentRows.take 1 }
  match rows.get? 0 with
  | none => s0
  | some rc0 =>
      let s1 := setRowValues data rc0 s0
      rc0.fields.foldl
        (fun st fc =>
          match truthyString (data.entries.lookup fc.id) with
          | some v =>
              if isControlling fc then
                let st1 := handleBranching rows rc0 fc v st
                (st1.currentRows.drop 1).foldl
                  (fun st2 ridx =>
                    match rows.get? ridx with
                    | none => st2
                    | some rc => setRowValues data rc st2) st1
              else st
          | none => st) s1

/-- render(existingData) for a fresh session: render row 0, then populate
from the bag. -/
def populate (rows : List RowConfig) (data : Bag) : FormState :=
  setFormData rows data (initForm rows)

/-- Key list obtained after successively Map.set-ting each id of the given
list: an id already present keeps its position, a new id is appended.  Used
to state which field ids are live after a row render. -/
def keysAfter (ks : List String) (ids : List String) : List String :=
  ids.foldl (fun a k => if a.contains k then a else a ++ [k]) ks

/-! Dynamic table widget (src/unnamed/part_001, class DynamicFormField,
table kind).  A row's style.display toggling by filterTable becomes the
filteredOut flag, the d-none class toggled by updatePagination becomes the
pageHidden flag, tbody.dataset.currentPage and dataset.rowsPerPage become
currentPage and rowsPerPage, and this.deletedIds becomes an
insertion-ordered duplicate-free list.  The embedded filter operation is the
"text" branch of filterTable; the "number" and "date" branches differ only
in the predicate deciding show and likewise touch nothing but
style.display.  sortTable only permutes the existing tr elements and never
touches this.deletedIds. -/

/-- One configured table column: header, input type, and the select options
when present (a select cell defaults to its first option value, a plain
input to the empty string). -/
structure Column where
  header : String
  ctype : String
  options : List String
deriving DecidableEq

/-- Default cell value of a freshly added row for this column. -/
def Column.defaultValue (c : Column) : String :=
  (c.options.head?).getD ""

/-- One table body row: the optional external identity (tr.dataset.id), the
cell input values in configured column order, whether filterTable hid it
(style.display = "none"), whether updatePagination hid it (d-none). -/
structure TableRow where
  rowId : Option String
  cells : List String
  filteredOut : Bool
  pageHidden : Bool
deriving DecidableEq

/-- State of one table-typed DynamicFormField. -/
structure TableField where
  columns : List Column
  pagination : Bool
  rows : List TableRow
  deletedIds : List String
  rowsPerPage : Nat
  currentPage : Nat
deriving DecidableEq

/-- JS Set.add on the insertion-ordered model of this.deletedIds. -/
def setInsert (l : List String) (x : String) : List String :=
  if l.contains x then l else l ++ [x]

/-- The tr built by addTableRow: tagged with the given identity when
supplied, default cell values, no display suppression. -/
def newTableRow (cols : List Column) (existingId : Option String) : TableRow :=
  { rowId := existingId, cells := cols.map Column.defaultValue,
    filteredOut := false, pageHidden := false }

/-- addTableRow (src/unnamed/part_001 lines 361-389): append one row,
tagged when an existing identity is passed. -/
def addTableRow (t : TableField) (existingId : Option String) : TableField :=
  { t with rows := t.rows ++ [newTableRow t.columns existingId] }

/-- The delete button handler installed by addTableRow (lines 379-384): when
the row carries dataset.id, add that identity to this.deletedIds, then
remove the row.  Nothing in the source ever removes an element from
this.deletedIds. -/
def deleteTableRow (t : TableField) (i : Nat) : TableField :=
  match t.rows.get? i with
  | none => t
  | some r =>
      let deleted :=
        match r.rowId with
        | some id0 => setInsert t.deletedIds id0
        | none => t.deletedIds
      { t with rows := t.rows.eraseIdx i, deletedIds := deleted }

/-- Editing one cell input of one row. -/
def setCell (t : TableField) (i j : Nat) (v : String) : TableField :=
  match t.rows.get? i with
  | none => t
  | some r => { t with rows := t.rows.set i { r with cells := r.cells.set j v } }

/-- The rows whose style.display is not "none" (the post-filter visible
set): the row collection that pagination and CSV export operate over. -/
def visibleRows (t : TableField) : List TableRow :=
  t.rows.filter (fun r => !r.filteredOut)

/-- totalPages of updatePagination (line 639):
Math.ceil(visibleRows.length / rowsPerPage), as Nat ceiling division (the UI
only offers rowsPerPage in {5, 10, 25, 50}, so the divisor is positive). -/
def totalPages (t : TableField) : Nat :=
  ((visibleRows t).length + t.rowsPerPage - 1) / t.rowsPerPage

/-- updatePagination (lines 631-691): a no-op unless pagination is
configured; otherwise walk the post-filter visible rows in order, assign the
k-th of them to page k / rowsPerPage + 1, and hide exactly those whose page
differs from currentPage.  currentPage itself is never changed here - the
function contains no clamping. -/
def updatePagination (t : TableField) : TableField :=
  if t.pagination then
    let step := fun (acc : Nat × List TableRow) (r : TableRow) =>
      if r.filteredOut then (acc.1, acc.2 ++ [r])
      else
        let page := acc.1 / t.rowsPerPage + 1
        (acc.1 + 1, acc.2 ++ [{ r with pageHidden := page != t.currentPage }])
    { t with rows := (t.rows.foldl step (0, [])).2 }
  else t

/-- The rows the user actually sees: post-filter and on the current page. -/
def displayedRows (t : TableField) : List TableRow :=
  t.rows.filter (fun r => !r.filteredOut && !r.pageHidden)

/-- Whether the first character list is an initial segment of the second. -/
def startsWithSeq : List Char → List Char → Bool
  | [], _ => true
  | _ :: _, [] => false
  | a :: as, b :: bs => a == b && startsWithSeq as bs

/-- Whether the first character list occurs contiguously inside the second
(String.prototype.includes). -/
def containsSeq (needle : List Char) : List Char → Bool
  | [] => needle.isEmpty
  | b :: bs => startsWithSeq needle (b :: bs) || containsSeq needle bs

/-- The "text" case of the per-row show decision of filterTable (lines
585-589): an empty criterion shows everything, otherwise case-insensitive
substring match (toLowerCase modeled per character). -/
def textFilterShow (filterValue cellValue : String) : Bool :=
  filterValue == "" ||
    containsSeq (filterValue.toList.map Char.toLower)
      (cellValue.toList.map Char.toLower)

/-- filterTable (lines 558-596), "text" branch: locate the column, toggle
each row's style.display from the show decision on that cell, then call
updatePagination.  The currentPage dataset entry is left untouched. -/
def filterTableText (t : TableField) (columnHeader filterValue : String) :
    TableField :=
  let columnIndex := t.columns.findIdx? (fun col => col.header == columnHeader)
  let rows := t.rows.map (fun r =>
    let cellValue :=
      match columnIndex with
      | some j => (r.cells.get? j).getD ""
      | none => ""
    { r with filteredOut := !(textFilterShow filterValue cellValue) })
  updatePagination { t with rows := rows }

/-- Clicking a page button (lines 666-678): buttons exist for pages 1 up to
totalPages only; the clicked button stores its number and re-paginates. -/
def clickPage (t : TableField) (i : Nat) : TableField :=
  if 1 ≤ i ∧ i ≤ totalPages t then updatePagination { t with currentPage := i }
  else t

/-- The rows-per-page select handler (lines 621-625): store the new size,
reset currentPage to 1, re-paginate. -/
def setRowsPerPage (t : TableField) (n : Nat) : TableField :=
  updatePagination { t with rowsPerPage := n, currentPage := 1 }

/-- exportToCsv (lines 693-720): take every th text (the sort indicator
stripped) and drop the LAST of them - the code comment says "Remove delete
column", but the header row has one th per configured column and none for
the delete buttons, so the last configured header is dropped; then one
comma-joined line per post-filter visible row containing every cell value
(the delete cell holds only a button and contributes nothing). -/
def exportToCsv (t : TableField) : String :=
  let headers := (t.columns.map Column.header).dropLast
  let visible := t.rows.filter (fun r => !r.filteredOut)
  String.intercalate "\n"
    (String.intercalate "," headers :: visible.map (fun r => String.intercalate "," r.cells))

/-- JS String.prototype.split with a one-character separator, on the
character list: every occurrence splits, empty pieces are kept, and the
result always has at least one piece. -/
def splitChar (sep : Char) : List Char → List (List Char)
  | [] => [[]]
  | c :: cs =>
      let r := splitChar sep cs
      if c == sep then [] :: r
      else
        match r with
        | [] => [[c]]
        | h :: t => (c :: h) :: t

/-- JS String.prototype.trim on the character list: drop whitespace from
both ends. -/
def trimChars (cs : List Char) : List Char :=
  ((cs.dropWhile Char.isWhitespace).reverse.dropWhile Char.isWhitespace).reverse

/-- CSV line parsing of importCsv (lines 729-731): split the line on commas
and trim each cell. -/
def trimCells (line : List Char) : List String :=
  (splitChar ',' line).map (fun cell => (trimChars cell).asString)

/-- The rows array of importCsv: the text split on newlines, each line split
on commas with trimmed cells. -/
def parsedCsv (text : String) : List (List String) :=
  (splitChar '\n' text.toList).map trimCells

/-- The parsed first line of the CSV text (rows[0] in the code; a split
always yields at least one piece). -/
def csvHeaders (text : String) : List String :=
  (parsedCsv text).headD []

/-- The parsed subsequent lines that are not skipped by the empty-line test
rows[i].length == 1 && rows[i][0] == "". -/
def dataLines (text : String) : List (List String) :=
  ((parsedCsv text).drop 1).filter
    (fun line => !(line.length == 1 && line.headD "" == ""))

/-- Cell assignment of importCsv (lines 754-765): start from the default
cells of a fresh row, then for every CSV header position set the cell of the
FIRST configured column carrying that header to the line's value at the
header's position (missing value meaning the empty string). -/
def fillImportedCells (cols : List Column) (headers : List String)
    (line : List String) : List String :=
  headers.enum.foldl
    (fun cells p =>
      match cols.findIdx? (fun col => col.header == p.2) with
      | some j => cells.set j ((line.get? p.1).getD "")
      | none => cells)
    (cols.map Column.defaultValue)

/-- A row created by importCsv: addTableRow without identity, then the cells
filled from the line. -/
def importedRow (cols : List Column) (headers : List String)
    (line : List String) : TableRow :=
  { rowId := none, cells := fillImportedCells cols headers line,
    filteredOut := false, pageHidden := false }

/-- importCsv (lines 723-774): parse, check that every configured column
header occurs in the parsed first line and throw otherwise (the tbody is
cleared only after this check passes, so a failed import leaves the rows
untouched), then replace all rows with one untagged row per non-skipped
subsequent line. -/
def importCsv (t : TableField) (text : String) : Except String TableField :=
  let parsed := parsedCsv text
  let headers := parsed.headD []
  if (t.columns.map Column.header).all (fun h => headers.contains h) then
    Except.ok
      ((parsed.drop 1).foldl
        (fun acc line =>
          if line.length == 1 && line.headD "" == "" then acc
          else { acc with rows := acc.rows ++ [importedRow t.columns headers line] })
        { t with rows := [] })
  else Except.error "CSV headers do not match table columns"

/-- The value extracted from a tagged or untagged row by getValue (lines
468-486): the optional Id entry followed by one entry per column header. -/
def tableRowData (cols : List Column) (r : TableRow) : List (String × String) :=
  (match r.rowId with
   | some i => [("Id", i)]
   | none => []) ++ (cols.map Column.header).zip r.cells

/-- The table part of the submitted value bag. -/
structure TableValue where
  rows : List (List (String × String))
  deletedIds : List String
deriving DecidableEq

/-- getValue for a table field (lines 465-486): every tr (whatever its
display state) contributes a row object, and deletedIds is reported as an
array. -/
def tableGetValue (t : TableField) : TableValue :=
  { rows := t.rows.map (tableRowData t.columns), deletedIds := t.deletedIds }

/-- The user-reachable table operations embedded here. -/
inductive TableOp where
  | add (existingId : Option String)
  | del (i : Nat)
  | cell (i j : Nat) (v : String)
  | filterText (columnHeader filterValue : String)
  | page (i : Nat)
  | perPage (n : Nat)
  | importText (text : String)
deriving DecidableEq

/-- Apply one operation; a failed import is caught by the code's try/catch
and leaves the state as it was. -/
def applyOp (t : TableField) : TableOp → TableField
  | TableOp.add existingId => addTableRow t existingId
  | TableOp.del i => deleteTableRow t i
  | TableOp.cell i j v => setCell t i j v
  | TableOp.filterText h v => filterTableText t h v
  | TableOp.page i => clickPage t i
  | TableOp.perPage n => setRowsPerPage t n
  | TableOp.importText text =>
      match importCsv t text with
      | Except.ok t1 => t1
      | Except.error _ => t

/-- Cell content as the specification words it: the value of a configured
column comes from the CSV position of that column's header, not from the
column's own position; a column whose header is absent keeps its default. -/
def byNameCell (headers line : List String) (c : Column) : String :=
  match headers.findIdx? (fun h => h == c.header) with
  | some i => (line.get? i).getD ""
  | none => Column.defaultValue c

/-- By-header-name import mapping for all configured columns. -/
def byNameCells (cols : List Column) (headers line : List String) :
    List String :=
  cols.map (byNameCell headers line)

/-! Concrete row-configuration sets and sessions used by the scenario
claims. -/

/-- The userType radio field of the specification's branching scenario. -/
def fcUserType : FieldConfig :=
  { id := "userType", kind := FieldKind.radio, options := ["individual", "business"] }

/-- Row 0 of the scenario: userType branches individual to row 1, business
to row 2. -/
def rowU0 : RowConfig :=
  { id := 0, fields := [fcUserType],
    branchConditions := some [
      { fieldId := "userType", value := CondValue.scalar "individual",
        operator := none, nextRow := 1, defaultBranch := false },
      { fieldId := "userType", value := CondValue.scalar "business",
        operator := none, nextRow := 2, defaultBranch := false } ] }

/-- Row 1 of the scenario, holding the field extra1. -/
def rowU1 : RowConfig :=
  { id := 1, fields := [{ id := "extra1", kind := FieldKind.text, options := [] }],
    branchConditions := none }

/-- Row 2 of the scenario, holding the field biz1. -/
def rowU2 : RowConfig :=
  { id := 2, fields := [{ id := "biz1", kind := FieldKind.text, options := [] }],
    branchConditions := none }

/-- The scenario row set. -/
def rowsU : List RowConfig := [rowU0, rowU1, rowU2]

/-- The session state after selecting "individual" and then "business". -/
def stateU : FormState :=
  selectRadio rowsU rowU0 fcUserType "business"
    (selectRadio rowsU rowU0 fcUserType "individual" (initForm rowsU))

/-- Controlling select field of row 0 in the two-level branching session. -/
def fcL0 : FieldConfig :=
  { id := "s0", kind := FieldKind.select, options := ["a", "z"] }

/-- Controlling select field of row 1 in the two-level branching session. -/
def fcL1 : FieldConfig :=
  { id := "s1", kind := FieldKind.select, options := ["b", "z"] }

/-- Row 0: s0 = "a" branches to row 1. -/
def rowL0 : RowConfig :=
  { id := 0, fields := [fcL0],
    branchConditions := some [
      { fieldId := "s0", value := CondValue.scalar "a",
        operator := none, nextRow := 1, defaultBranch := false } ] }

/-- Row 1: s1 = "b" branches to row 3 (a branch decision NOT on row 0). -/
def rowL1 : RowConfig :=
  { id := 1, fields := [fcL1],
    branchConditions := some [
      { fieldId := "s1", value := CondValue.scalar "b",
        operator := none, nextRow := 3, defaultBranch := false } ] }

/-- Row 2 (the sequential successor never taken in the session). -/
def rowL2 : RowConfig :=
  { id := 2, fields := [{ id := "t2", kind := FieldKind.text, options := [] }],
    branchConditions := none }

/-- Row 3, reached from row 1 in the live session. -/
def rowL3 : RowConfig :=
  { id := 3, fields := [{ id := "t3", kind := FieldKind.text, options := [] }],
    branchConditions := none }

/-- The two-level row set. -/
def rowsL : List RowConfig := [rowL0, rowL1, rowL2, rowL3]

/-- Live two-level session: select "a" on row 0, then "b" on row 1, giving
the path [0, 1, 3]. -/
def liveL : FormState :=
  selectOption rowsL rowL1 fcL1 "b"
    (selectOption rowsL rowL0 fcL0 "a" (initForm rowsL))

/-- Controlling select field of the single-level round-trip session. -/
def fcB0 : FieldConfig :=
  { id := "s0", kind := FieldKind.select, options := ["x", "y"] }

/-- Row 0 of the single-level session: s0 branches x to 1, y to 2. -/
def rowB0 : RowConfig :=
  { id := 0, fields := [fcB0],
    branchConditions := some [
      { fieldId := "s0", value := CondValue.scalar "x",
        operator := none, nextRow := 1, defaultBranch := false },
      { fieldId := "s0", value := CondValue.scalar "y",
        operator := none, nextRow := 2, defaultBranch := false } ] }

/-- Row 1 of the single-level session. -/
def rowB1 : RowConfig :=
  { id := 1, fields := [{ id := "t1", kind := FieldKind.text, options := [] }],
    branchConditions := none }

/-- Row 2 of the single-level session. -/
def rowB2 : RowConfig :=
  { id := 2, fields := [{ id := "t2", kind := FieldKind.text, options := [] }],
    branchConditions := none }

/-- The single-level row set. -/
def rowsB : List RowConfig := [rowB0, rowB1, rowB2]

/-- Live single-level session: select "y" on row 0 (branching to row 2) and
type w into row 2's text field. -/
def liveB (w : String) : FormState :=
  textInput "t2" w (selectOption rowsB rowB0 fcB0 "y" (initForm rowsB))

/-- Controlling radio field of the id-versus-position row set. -/
def fcP0 : FieldConfig :=
  { id := "f0", kind := FieldKind.radio, options := ["x"] }

/-- Row at position 0, id 0: f0 = "x" branches to nextRow 1. -/
def rowP0 : RowConfig :=
  { id := 0, fields := [fcP0],
    branchConditions := some [
      { fieldId := "f0", value := CondValue.scalar "x",
        operator := none, nextRow := 1, defaultBranch := false } ] }

/-- The row at ARRAY POSITION 1 carries id 9 and field gA. -/
def rowPosOne : RowConfig :=
  { id := 9, fields := [{ id := "gA", kind := FieldKind.text, options := [] }],
    branchConditions := none }

/-- The row whose ID is 1 sits at array position 2 and carries field gB. -/
def rowPosTwo : RowConfig :=
  { id := 1, fields := [{ id := "gB", kind := FieldKind.text, options := [] }],
    branchConditions := none }

/-- A row set in which row ids differ from array positions. -/
def rowsP : List RowConfig := [rowP0, rowPosOne, rowPosTwo]

/-- The session after selecting "x" on row 0 of rowsP. -/
def stateP : FormState :=
  selectRadio rowsP rowP0 fcP0 "x" (initForm rowsP)

/-! Concrete table fixtures. -/

/-- A single filterable text column. -/
def colA : Column := { header := "A", ctype := "text", options := [] }

/-- An untagged visible single-cell row. -/
def cellRow (s : String) : TableRow :=
  { rowId := none, cells := [s], filteredOut := false, pageHidden := false }

/-- A paginated table of 25 visible rows (3 of them matching "keep"),
rowsPerPage 5, on page 1. -/
def t25 : TableField :=
  { columns := [colA], pagination := true,
    rows := (List.range 25).map
      (fun i => cellRow ((if i < 3 then "keep" else "row") ++ toString i)),
    deletedIds := [], rowsPerPage := 5, currentPage := 1 }

/-- t25 after navigating to page 5 and then filtering down to the 3 "keep"
rows. -/
def t25Filtered : TableField := filterTableText (clickPage t25 5) "A" "keep"

/-- A paginated table of 12 visible rows with rowsPerPage 5. -/
def t12 : TableField :=
  { columns := [colA], pagination := true,
    rows := (List.range 12).map (fun i => cellRow ("r" ++ toString i)),
    deletedIds := [], rowsPerPage := 5, currentPage := 1 }

/-- A two-column table with one visible row, for the export claim. -/
def t8 : TableField :=
  { columns := [
      { header := "Name", ctype := "text", options := [] },
      { header := "Age", ctype := "number", options := [] } ],
    pagination := false,
    rows := [{ rowId := none, cells := ["alice", "30"],
               filteredOut := false, pageHidden := false }],
    deletedIds := [], rowsPerPage := 5, currentPage := 1 }

/-- A two-column table holding one row tagged with external identity "42"
and one untagged row. -/
def t42 : TableField :=
  { columns := [
      { header := "Item", ctype := "text", options := [] },
      { header := "Qty", ctype := "number", options := [] } ],
    pagination := false,
    rows := [
      { rowId := some "42", cells := ["a", "1"],
        filteredOut := false, pageHidden := false },
      { rowId := none, cells := ["b", "2"],
        filteredOut := false, pageHidden := false } ],
    deletedIds := [], rowsPerPage := 5, currentPage := 1 }

/-- t42 after the user deletes the tagged row. -/
def t42Deleted : TableField := deleteTableRow t42 0

/-- A CSV text whose header line permutes the configured column order of
t42. -/
def csvPermuted : String := "Qty,Item\n3,c"

/-- The expected result of importing csvPermuted into t42Deleted: the single
data line lands by header name, untagged, replacing all rows; deletedIds is
untouched. -/
def t42Imported : TableField :=
  { t42Deleted with rows := [
      { rowId := none, cells := ["c", "3"],
        filteredOut := false, pageHidden := false } ] }

theorem find?_filter_eq {α : Type} (l : List α) (p q : α → Bool) :
    (l.filter p).find? q = l.find? (fun a => p a && q a) := by
  induction l with
  | nil => rfl
  | cons a t ih =>
      by_cases hp : p a
      · by_cases hq : q a
        · simp [List.filter, List.find?, hp, hq]
        · simp [List.filter, List.find?, hp, hq, ih]
      · simp [List.filter, List.find?, hp, ih]

theorem specMatches_eq_condShouldBranch (c : BranchCondition) (value : String) :
    specMatches c value = condShouldBranch c value := by
  unfold specMatches condShouldBranch
  cases c.value with
  | scalar s => by_cases h : c.defaultBranch <;> simp [h]
  | seq l => rfl

/-- Claim C1 (confirmed): for every row configuration, controlling field id
and raw value, the branch decision of handleBranching scans the row's
branchConditions in declaration order considering only conditions whose
fieldId equals the controlling field id; a sequence-valued condition matches
under operator "or" iff the raw value is a member and under "and"/default
iff the raw value equals every element; a scalar-valued condition matches
iff equal, a defaultBranch condition reached without an explicit value match
(its scalar test is never consulted) matching unconditionally; the first
matching condition's nextRow wins and scanning stops; otherwise the
defaultBranch condition's nextRow is used when one exists for this field;
otherwise rowConfig.id + 1. -/
theorem branch_decision_follows_claim (rc : RowConfig) (fid : String) (value : String) :
    decideNextRow rc fid value = decideSpec rc fid value := by
  unfold decideNextRow decideSpec
  cases h : rc.branchConditions with
  | none => rfl
  | some conds =>
      have h1 : (conds.filter (fun c => c.fieldId == fid)).find?
            (fun c => specMatches c value)
          = conds.find? (fun c => c.fieldId == fid && condShouldBranch c value) := by
        rw [find?_filter_eq]
        congr 1
        funext c
        rw [specMatches_eq_condShouldBranch]
      have h2 : (conds.filter (fun c => c.fieldId == fid)).find?
            (fun c => c.defaultBranch)
          = conds.find? (fun c => c.fieldId == fid && c.defaultBranch) := by
        rw [find?_filter_eq]
      simp only [Option.getD]
      rw [h1, h2]

theorem keysAfter_nil (ks : List String) : keysAfter ks [] = ks := rfl

theorem keysAfter_cons (ks : List String) (i : String) (ids : List String) :
    keysAfter ks (i :: ids)
      = keysAfter (if ks.contains i then ks else ks ++ [i]) ids := rfl

theorem mapSet_keys {β : Type} (m : List (String × β)) (k : String) (v : β) :
    (mapSet m k v).map Prod.fst =
      if (m.map Prod.fst).contains k then m.map Prod.fst
      else m.map Prod.fst ++ [k] := by
  induction m with
  | nil => simp [mapSet]
  | cons a t ih =>
      obtain ⟨k0, v0⟩ := a
      by_cases h : k0 = k
      · subst h
        simp [mapSet, List.contains_cons]
      · have hkk : (k == k0) = false := by
          simp [Ne.symm h]
        by_cases hc : (t.map Prod.fst).contains k
        · simp only [mapSet, if_neg h, List.map_cons, ih]
          rw [if_pos hc, List.contains_cons, hkk, hc]
          simp
        · simp only [mapSet, if_neg h, List.map_cons, ih]
          rw [if_neg hc, List.contains_cons, hkk]
          simp only [Bool.false_or]
          rw [if_neg hc, List.cons_append]

theorem foldl_mapSet_keys (fcs : List FieldConfig) (m : List (String × FieldState)) :
    ((fcs.foldl (fun fs fc => mapSet fs fc.id (FieldState.fresh fc)) m).map Prod.fst)
      = keysAfter (m.map Prod.fst) (fcs.map FieldConfig.id) := by
  induction fcs generalizing m with
  | nil => rfl
  | cons fc fcs ih =>
      simp only [List.foldl_cons, List.map_cons]
      rw [keysAfter_cons, ih, mapSet_keys]

theorem keysAfter_append_ex (ids : List String) (ks : List String) :
    ∃ l, keysAfter ks ids = ks ++ l := by
  induction ids generalizing ks with
  | nil => exact ⟨[], by simp [keysAfter_nil]⟩
  | cons i ids ih =>
      rw [keysAfter_cons]
      by_cases h : ks.contains i
      · obtain ⟨l, hl⟩ := ih ks
        exact ⟨l, by rw [if_pos h, hl]⟩
      · obtain ⟨l, hl⟩ := ih (ks ++ [i])
        refine ⟨[i] ++ l, ?_⟩
        rw [if_neg h, hl, List.append_assoc]

theorem hb_stale (rows : List RowConfig) (rc : RowConfig) (fc : FieldConfig)
    (v : String) (s : FormState)
    (h : s.currentRows.findIdx? (fun rowId => rowId == rc.id) = none) :
    handleBranching rows rc fc v s = s := by
  unfold handleBranching
  rw [h]

theorem hb_short (rows : List RowConfig) (rc : RowConfig) (fc : FieldConfig)
    (v : String) (s : FormState) (i : Nat)
    (h1 : s.currentRows.findIdx? (fun rowId => rowId == rc.id) = some i)
    (h2 : s.currentRows.get? (i + 1) = some (decideNextRow rc fc.id v)) :
    handleBranching rows rc fc v s =
      (if rc.branchConditions.isSome then
        { s with branchHistory := mapSet s.branchHistory rc.id (decideNextRow rc fc.id v) }
       else s) := by
  unfold handleBranching
  rw [h1]
  dsimp only
  by_cases hb : rc.branchConditions.isSome
  · rw [if_pos hb]
    dsimp only
    rw [if_pos h2]
  · rw [if_neg hb]
    rw [if_pos h2]

theorem hb_branch (rows : List RowConfig) (rc : RowConfig) (fc : FieldConfig)
    (v : String) (s : FormState) (i : Nat)
    (h1 : s.currentRows.findIdx? (fun rowId => rowId == rc.id) = some i)
    (h2 : ¬ s.currentRows.get? (i + 1) = some (decideNextRow rc fc.id v)) :
    handleBranching rows rc fc v s =
      (if decideNextRow rc fc.id v < rows.length
       then renderRow rows (decideNextRow rc fc.id v) { currentRows := s.currentRows.take (i + 1), fields := s.fields, branchHistory := if rc.branchConditions.isSome then mapSet s.branchHistory rc.id (decideNextRow rc fc.id v) else s.branchHistory }
       else { currentRows := s.currentRows.take (i + 1), fields := s.fields, branchHistory := if rc.branchConditions.isSome then mapSet s.branchHistory rc.id (decideNextRow rc fc.id v) else s.branchHistory }) := by
  unfold handleBranching
  rw [h1]
  dsimp only
  by_cases hb : rc.branchConditions.isSome
  · rw [if_pos hb]
    dsimp only
    rw [if_neg h2]
    rw [if_pos hb]
  · rw [if_neg hb]
    rw [if_neg h2]
    rw [if_neg hb]

theorem mapSet_idem {α β : Type} [DecidableEq α] (m : List (α × β)) (k : α) (v : β) :
    mapSet (mapSet m k v) k v = mapSet m k v := by
  induction m with
  | nil => simp [mapSet]
  | cons a t ih =>
      obtain ⟨k0, v0⟩ := a
      by_cases h : k0 = k
      · simp [mapSet, h]
      · simp [mapSet, h, ih]

theorem mapUpdate_keys {α β : Type} [DecidableEq α] (m : List (α × β)) (k : α)
    (f : β → β) : (mapUpdate m k f).map Prod.fst = m.map Prod.fst := by
  induction m with
  | nil => rfl
  | cons a t ih =>
      obtain ⟨k0, v0⟩ := a
      by_cases h : k0 = k
      · simp [mapUpdate, h]
      · simp [mapUpdate, h, ih]

theorem mapUpdate_idem {α β : Type} [DecidableEq α] (m : List (α × β)) (k : α)
    (f : β → β) (hf : ∀ x, f (f x) = f x) :
    mapUpdate (mapUpdate m k f) k f = mapUpdate m k f := by
  induction m with
  | nil => rfl
  | cons a t ih =>
      obtain ⟨k0, v0⟩ := a
      by_cases h : k0 = k
      · simp [mapUpdate, h, hf]
      · simp [mapUpdate, h, ih]

theorem renderRow_fields_keys (rows : List RowConfig) (n : Nat) (s : FormState) :
    (renderRow rows n s).fields.map Prod.fst =
      (match rows.get? n with
       | some rc => keysAfter (s.fields.map Prod.fst) (rc.fields.map FieldConfig.id)
       | none => s.fields.map Prod.fst) := by
  unfold renderRow
  cases hg : rows.get? n with
  | none => rfl
  | some rc =>
      dsimp only
      exact foldl_mapSet_keys rc.fields s.fields

theorem renderRow_currentRows (rows : List RowConfig) (n : Nat) (s : FormState) :
    (renderRow rows n s).currentRows =
      (match rows.get? n with
       | some _ => s.currentRows ++ [n]
       | none => s.currentRows) := by
  unfold renderRow
  cases hg : rows.get? n with
  | none => rfl
  | some rc => rfl

theorem findIdx?_lt_length {α : Type} {p : α → Bool} {L : List α} {i : Nat}
    (h : L.findIdx? p = some i) : i < L.length := by
  obtain ⟨hlt, -, -⟩ := List.findIdx?_eq_some_iff_getElem.mp h
  exact hlt

theorem findIdx?_take_append {α : Type} {p : α → Bool} {L : List α} {i : Nat}
    (h : L.findIdx? p = some i) (rest : List α) :
    (L.take (i + 1) ++ rest).findIdx? p = some i := by
  rw [List.findIdx?_append]
  suffices hs : (L.take (i + 1)).findIdx? p = some i by
    rw [hs]
    rfl
  rw [List.findIdx?_eq_some_iff_getElem] at h ⊢
  obtain ⟨hlen, hp, hmin⟩ := h
  have hlen2 : i < (L.take (i + 1)).length := by
    rw [List.length_take]
    omega
  refine ⟨hlen2, ?_, ?_⟩
  · rw [List.getElem_take]
    exact hp
  · intro j hji
    rw [List.getElem_take]
    exact hmin j hji

theorem get?_take_append_last {α : Type} (L : List α) (i : Nat) (b : α)
    (h : i < L.length) :
    (L.take (i + 1) ++ [b]).get? (i + 1) = some b := by
  have hlen : (L.take (i + 1)).length = i + 1 := by
    rw [List.length_take]
    omega
  rw [List.get?_eq_getElem?, List.getElem?_append_right (by omega), hlen]
  simp

theorem get?_take_own_length {α : Type} (L : List α) (i : Nat) :
    (L.take (i + 1)).get? (i + 1) = none := by
  rw [List.get?_eq_getElem?]
  rw [List.getElem?_eq_none]
  rw [List.length_take]
  omega

theorem hb_update_second_noop (rows : List RowConfig) (rc : RowConfig)
    (fc : FieldConfig) (v : String) (g : FieldState → FieldState)
    (hg : ∀ x, g (g x) = g x) (s : FormState) :
    let u : FormState → FormState :=
      fun st => { st with fields := mapUpdate st.fields fc.id g }
    let t := handleBranching rows rc fc v (u s)
    handleBranching rows rc fc v (u t) = u t := by
  intro u t
  have husu : u (u s) = u s := by
    show ({ u s with fields := mapUpdate (mapUpdate s.fields fc.id g) fc.id g }) = u s
    rw [mapUpdate_idem _ _ _ hg]
  cases h1 : s.currentRows.findIdx? (fun rowId => rowId == rc.id) with
  | none =>
      have e1 : t = u s := hb_stale rows rc fc v (u s) h1
      rw [e1, husu]
      exact hb_stale rows rc fc v (u s) h1
  | some i =>
      by_cases h2 : s.currentRows.get? (i + 1) = some (decideNextRow rc fc.id v)
      · have e1 : t = (if rc.branchConditions.isSome then { u s with branchHistory := mapSet (u s).branchHistory rc.id (decideNextRow rc fc.id v) } else u s) :=
          hb_short rows rc fc v (u s) i h1 h2
        by_cases hbc : rc.branchConditions.isSome
        · rw [if_pos hbc] at e1
          have e2 : u t = t := by
            have hf : t.fields = mapUpdate s.fields fc.id g := by rw [e1]
            show ({ t with fields := mapUpdate t.fields fc.id g }) = t
            rw [hf, mapUpdate_idem _ _ _ hg, ← hf]
          rw [e2]
          have e3 := hb_short rows rc fc v t i (by rw [e1]; exact h1) (by rw [e1]; exact h2)
          rw [if_pos hbc] at e3
          rw [e3]
          have hbh : t.branchHistory = mapSet s.branchHistory rc.id (decideNextRow rc fc.id v) := by
            rw [e1]
          rw [hbh, mapSet_idem, ← hbh]
        · rw [if_neg hbc] at e1
          have e2 : u t = t := by
            rw [e1]
            exact husu
          rw [e2]
          have e3 := hb_short rows rc fc v t i (by rw [e1]; exact h1) (by rw [e1]; exact h2)
          rw [if_neg hbc] at e3
          exact e3
      · have e1 := hb_branch rows rc fc v (u s) i h1 h2
        by_cases hl : decideNextRow rc fc.id v < rows.length
        · rw [if_pos hl] at e1
          cases hg2 : rows.get? (decideNextRow rc fc.id v) with
          | none =>
              exfalso
              rw [List.get?_eq_none] at hg2
              omega
          | some rcN =>
              have e1b : t = { currentRows := s.currentRows.take (i + 1) ++ [decideNextRow rc fc.id v], fields := rcN.fields.foldl (fun fs fc2 => mapSet fs fc2.id (FieldState.fresh fc2)) (mapUpdate s.fields fc.id g), branchHistory := if rc.branchConditions.isSome then mapSet s.branchHistory rc.id (decideNextRow rc fc.id v) else s.branchHistory } := by
                rw [show t = handleBranching rows rc fc v (u s) from rfl, e1]
                unfold renderRow
                rw [hg2]
              have hidx2 : (u t).currentRows.findIdx? (fun rowId => rowId == rc.id) = some i := by
                rw [e1b]
                exact findIdx?_take_append h1 _
              have hsc2 : (u t).currentRows.get? (i + 1) = some (decideNextRow rc fc.id v) := by
                rw [e1b]
                exact get?_take_append_last s.currentRows i _ (findIdx?_lt_length h1)
              have e3 := hb_short rows rc fc v (u t) i hidx2 hsc2
              rw [e3]
              by_cases hbc : rc.branchConditions.isSome
              · rw [if_pos hbc]
                have hbh : (u t).branchHistory = mapSet s.branchHistory rc.id (decideNextRow rc fc.id v) := by
                  rw [e1b]
                  dsimp only
                  rw [if_pos hbc]
                rw [hbh, mapSet_idem, ← hbh]
              · rw [if_neg hbc]
        · rw [if_neg hl] at e1
          have e1b : t = { currentRows := s.currentRows.take (i + 1), fields := mapUpdate s.fields fc.id g, branchHistory := if rc.branchConditions.isSome then mapSet s.branchHistory rc.id (decideNextRow rc fc.id v) else s.branchHistory } := by
            rw [show t = handleBranching rows rc fc v (u s) from rfl, e1]
          have hidx2 : (u t).currentRows.findIdx? (fun rowId => rowId == rc.id) = some i := by
            rw [e1b]
            have h := findIdx?_take_append h1 ([] : List Nat)
            rwa [List.append_nil] at h
          have hsc2 : ¬ (u t).currentRows.get? (i + 1) = some (decideNextRow rc fc.id v) := by
            rw [e1b]
            dsimp only
            rw [get?_take_own_length]
            simp
          have e3 := hb_branch rows rc fc v (u t) i hidx2 hsc2
          rw [e3]
          rw [if_neg hl]
          have hcr : (u t).currentRows.take (i + 1) = (u t).currentRows := by
            rw [e1b]
            dsimp only
            rw [List.take_take, min_self]
          rw [hcr]
          by_cases hbc : rc.branchConditions.isSome
          · have hbh : (u t).branchHistory = mapSet s.branchHistory rc.id (decideNextRow rc fc.id v) := by
              rw [e1b]
              dsimp only
              rw [if_pos hbc]
            rw [if_pos hbc, hbh, mapSet_idem, ← hbh]
          · rw [if_neg hbc]

theorem handleBranching_keys_ex (rows : List RowConfig) (rc : RowConfig)
    (fc : FieldConfig) (v : String) (s : FormState) :
    ∃ l, (handleBranching rows rc fc v s).fields.map Prod.fst
      = s.fields.map Prod.fst ++ l := by
  cases h1 : s.currentRows.findIdx? (fun rowId => rowId == rc.id) with
  | none =>
      refine ⟨[], ?_⟩
      rw [hb_stale rows rc fc v s h1, List.append_nil]
  | some i =>
      by_cases h2 : s.currentRows.get? (i + 1) = some (decideNextRow rc fc.id v)
      · refine ⟨[], ?_⟩
        rw [hb_short rows rc fc v s i h1 h2, List.append_nil]
        by_cases hbc : rc.branchConditions.isSome
        · rw [if_pos hbc]
        · rw [if_neg hbc]
      · rw [hb_branch rows rc fc v s i h1 h2]
        by_cases hl : decideNextRow rc fc.id v < rows.length
        · rw [if_pos hl, renderRow_fields_keys]
          cases hg : rows.get? (decideNextRow rc fc.id v) with
          | none =>
              refine ⟨[], ?_⟩
              rw [List.append_nil]
          | some rcN =>
              dsimp only
              exact keysAfter_append_ex _ _
        · rw [if_neg hl]
          refine ⟨[], ?_⟩
          rw [List.append_nil]

/-- Claim C2 counterexample: in the specification's own scenario (row 0
radio userType with individual to row 1, business to row 2; selecting
"individual" then "business"), currentRows does end as [0, 2], but row 1's
field extra1 is NOT discarded: its key still appears in the value bag
produced by handleSubmit, refuting the claim that every FieldModel of a
truncated row is discarded from the bag. -/
theorem stale_fields_in_bag_cex :
    stateU.currentRows = [0, 2] ∧ "extra1" ∈ bagKeys (handleSubmit stateU) := by
  decide

/-- Claim C2 (corrected): when reconciliation changes the branch target,
currentRows is truncated to positions 0..currentIndex and the removed rows'
DOM elements disappear, but the FieldModel instances of truncated rows stay
in this.fields - handleBranching never removes a key from the fields map -
so those fields still appear in the value bag produced by handleSubmit.  In
the scenario the selections leave currentRows == [0, 2] and branchHistory
== from 0 to 2, with row 1's field extra1 still live and submitted. -/
theorem truncation_keeps_stale_field_models :
    (∀ (rows : List RowConfig) (rc : RowConfig) (fc : FieldConfig) (v : String)
       (s : FormState),
       ∃ l, (handleBranching rows rc fc v s).fields.map Prod.fst
         = s.fields.map Prod.fst ++ l) ∧
    stateU.currentRows = [0, 2] ∧
    stateU.branchHistory = [(0, 2)] ∧
    stateU.fields.map Prod.fst = ["userType", "extra1", "biz1"] ∧
    "extra1" ∈ bagKeys (handleSubmit stateU) := by
  refine ⟨handleBranching_keys_ex, ?_, ?_, ?_, ?_⟩ <;> decide

/-- Claim C3 (confirmed): reconciliation is idempotent.  First, if the row
following the owning row in currentRows already equals the intended next
row, handleBranching stops, changing nothing but branchHistory (re-recorded
to the same value).  Second, invoking the change handler twice in a row
with the same value produces no additional row churn the second time: the
rendered row list, the set of live field ids and the branch history are
unchanged by the second invocation. -/
theorem reconciliation_idempotent :
    (∀ (rows : List RowConfig) (rc : RowConfig) (fc : FieldConfig) (v : String)
       (s : FormState) (i : Nat),
       s.currentRows.findIdx? (fun rowId => rowId == rc.id) = some i →
       s.currentRows.get? (i + 1) = some (decideNextRow rc fc.id v) →
       handleBranching rows rc fc v s =
         (if rc.branchConditions.isSome then { s with branchHistory := mapSet s.branchHistory rc.id (decideNextRow rc fc.id v) } else s)) ∧
    (∀ (rows : List RowConfig) (rc : RowConfig) (fc : FieldConfig) (v : String)
       (s : FormState),
       (changeEvent rows rc fc v (changeEvent rows rc fc v s)).currentRows
         = (changeEvent rows rc fc v s).currentRows ∧
       (changeEvent rows rc fc v (changeEvent rows rc fc v s)).fields.map Prod.fst
         = (changeEvent rows rc fc v s).fields.map Prod.fst ∧
       (changeEvent rows rc fc v (changeEvent rows rc fc v s)).branchHistory
         = (changeEvent rows rc fc v s).branchHistory) := by
  constructor
  · intro rows rc fc v s i h1 h2
    exact hb_short rows rc fc v s i h1 h2
  · intro rows rc fc v s
    unfold changeEvent
    cases hk : fc.kind with
    | radio =>
        unfold selectRadio
        dsimp only
        have h := hb_update_second_noop rows rc fc v
          (fun fs => { fs with checkedVal := some v }) (fun x => rfl) s
        dsimp only at h
        rw [h]
        exact ⟨rfl, mapUpdate_keys _ _ _, rfl⟩
    | select =>
        unfold selectOption
        dsimp only
        have h := hb_update_second_noop rows rc fc v
          (fun fs => { fs with domValue := v }) (fun x => rfl) s
        dsimp only at h
        rw [h]
        exact ⟨rfl, mapUpdate_keys _ _ _, rfl⟩
    | text =>
        unfold textInput
        dsimp only
        refine ⟨rfl, ?_, rfl⟩
        simp only [mapUpdate_keys]

/-- Witness for C3: the short-circuit equation instantiated on the concrete
scenario session right after its first selection. -/
theorem reconciliation_idempotent_witness :
    handleBranching rowsU rowU0 fcUserType "individual"
        (selectRadio rowsU rowU0 fcUserType "individual" (initForm rowsU))
      = (if rowU0.branchConditions.isSome then { selectRadio rowsU rowU0 fcUserType "individual" (initForm rowsU) with branchHistory := mapSet (selectRadio rowsU rowU0 fcUserType "individual" (initForm rowsU)).branchHistory rowU0.id (decideNextRow rowU0 fcUserType.id "individual") } else selectRadio rowsU rowU0 fcUserType "individual" (initForm rowsU)) :=
  reconciliation_idempotent.1 rowsU rowU0 fcUserType "individual"
    (selectRadio rowsU rowU0 fcUserType "individual" (initForm rowsU)) 0
    (by decide) (by decide)

/-- Claim C4 counterexample: a two-level live session over rowsL (select s0
= "a" on row 0, then s1 = "b" on row 1) displays the path [0, 1, 3], but
populate of its own submitted bag re-renders only [0, 1]: setFormData
re-triggers branching only for row 0's controlling fields, so the branch
decision made on row 1 is not replayed and row 3 with its field t3 is not
redisplayed - populate(submit()) does not reproduce the path. -/
theorem populate_roundtrip_cex :
    liveL.currentRows = [0, 1, 3] ∧
    (populate rowsL (handleSubmit liveL)).currentRows = [0, 1] ∧
    ¬ (populate rowsL (handleSubmit liveL)).currentRows = liveL.currentRows ∧
    ¬ ("t3" ∈ (populate rowsL (handleSubmit liveL)).fields.map Prod.fst) := by
  decide

/-- Claim C4 (corrected): the round-trip only holds one level deep.
setFormData triggers reconciliation solely for row-0 controlling fields
with a truthy bag value and then fills the rows brought into view; branch
decisions on rows after row 0 are not replayed (and radio extraction
returns the first option's value, so only select-driven decisions survive
submit()).  For a session whose only branch decision is a select on row 0,
populate(submit()) reproduces the exact state: path, field values and
branch history. -/
theorem populate_roundtrip_single_level (w : String) :
    populate rowsB (handleSubmit (liveB w)) = liveB w := rfl

/-- Claim C5 counterexample: in rowsP the row with id 1 sits at array
position 2 (field gB) while position 1 holds the row with id 9 (field gA).
Branching to nextRow = 1 renders the row at ARRAY POSITION 1: the session
ends with gA instantiated and gB absent, refuting the claim that the row
whose id equals 1 is rendered. -/
theorem row_addressing_cex :
    stateP.currentRows = [0, 1] ∧
    "gA" ∈ stateP.fields.map Prod.fst ∧
    ¬ ("gB" ∈ stateP.fields.map Prod.fst) := by
  decide

/-- Claim C5 (corrected): branching addresses rows by array position, not
by id.  When reconciliation replaces the branch target, the appended entry
of currentRows is the nextRow value used as an array index, the existence
test is nextRow < rows.length (position bound, equivalent to rows[nextRow]
being defined), and the instantiated fields are those of the row AT ARRAY
POSITION nextRow; in the id-versus-position row set the position-1 row's
field gA is created and the id-1 row's field gB is not. -/
theorem row_addressing_by_position :
    (∀ (rows : List RowConfig) (rc : RowConfig) (fc : FieldConfig) (v : String)
       (s : FormState) (i : Nat),
       s.currentRows.findIdx? (fun rowId => rowId == rc.id) = some i →
       ¬ s.currentRows.get? (i + 1) = some (decideNextRow rc fc.id v) →
       (handleBranching rows rc fc v s).currentRows
         = s.currentRows.take (i + 1) ++ (if decideNextRow rc fc.id v < rows.length then [decideNextRow rc fc.id v] else []) ∧
       (handleBranching rows rc fc v s).fields.map Prod.fst
         = (match rows.get? (decideNextRow rc fc.id v) with
            | some rcN => keysAfter (s.fields.map Prod.fst) (rcN.fields.map FieldConfig.id)
            | none => s.fields.map Prod.fst)) ∧
    (∀ (rows : List RowConfig) (n : Nat), (rows.get? n).isSome ↔ n < rows.length) ∧
    "gA" ∈ stateP.fields.map Prod.fst ∧ ¬ ("gB" ∈ stateP.fields.map Prod.fst) := by
  refine ⟨?_, ?_, by decide, by decide⟩
  · intro rows rc fc v s i h1 h2
    rw [hb_branch rows rc fc v s i h1 h2]
    by_cases hl : decideNextRow rc fc.id v < rows.length
    · rw [if_pos hl, if_pos hl]
      constructor
      · rw [renderRow_currentRows]
        cases hg : rows.get? (decideNextRow rc fc.id v) with
        | none =>
            exfalso
            rw [List.get?_eq_none] at hg
            omega
        | some rcN => rfl
      · rw [renderRow_fields_keys]
    · rw [if_neg hl, if_neg hl]
      have hg : rows.get? (decideNextRow rc fc.id v) = none := by
        rw [List.get?_eq_none]
        omega
      rw [hg]
      exact ⟨by rw [List.append_nil], rfl⟩
  · intro rows n
    constructor
    · intro h
      by_contra hlt
      rw [Option.isSome_iff_ne_none] at h
      exact h (by rw [List.get?_eq_none]; omega)
    · intro h
      rw [Option.isSome_iff_ne_none]
      intro hnone
      rw [List.get?_eq_none] at hnone
      omega

/-- Witness for C5 (corrected): the positional characterization
instantiated on the id-versus-position row set. -/
theorem row_addressing_by_position_witness :
    (handleBranching rowsP rowP0 fcP0 "x" (initForm rowsP)).currentRows
      = (initForm rowsP).currentRows.take (0 + 1) ++ (if decideNextRow rowP0 fcP0.id "x" < rowsP.length then [decideNextRow rowP0 fcP0.id "x"] else []) ∧
    (handleBranching rowsP rowP0 fcP0 "x" (initForm rowsP)).fields.map Prod.fst
      = (match rowsP.get? (decideNextRow rowP0 fcP0.id "x") with
         | some rcN => keysAfter ((initForm rowsP).fields.map Prod.fst) (rcN.fields.map FieldConfig.id)
         | none => (initForm rowsP).fields.map Prod.fst) :=
  row_addressing_by_position.1 rowsP rowP0 fcP0 "x" (initForm rowsP) 0
    (by decide) (by decide)

theorem updatePagination_currentPage (t : TableField) :
    (updatePagination t).currentPage = t.currentPage := by
  unfold updatePagination
  by_cases h : t.pagination
  · rw [if_pos h]
  · rw [if_neg h]

theorem updatePagination_deletedIds (t : TableField) :
    (updatePagination t).deletedIds = t.deletedIds := by
  unfold updatePagination
  by_cases h : t.pagination
  · rw [if_pos h]
  · rw [if_neg h]

/-- Claim C6 counterexample: in a paginated table of 25 visible rows with
rowsPerPage 5 (totalPages 5), navigating to page 5 and then filtering down
to 3 visible rows leaves currentPage at 5 - not clamped to 1 as the claim
requires. -/
theorem pagination_clamp_cex :
    totalPages t25 = 5 ∧
    t25Filtered.currentPage = 5 ∧
    ¬ t25Filtered.currentPage = 1 := by
  refine ⟨rfl, rfl, ?_⟩
  decide

/-- Claim C6 (corrected): pagination operates over the post-filter visible
row set with totalPages = ceil(visibleCount / rowsPerPage), and a
rows-per-page change resets currentPage to 1, but a filter change leaves
currentPage untouched: no clamping into [1, totalPages] exists anywhere in
updatePagination.  With rowsPerPage 5 and 12 visible rows totalPages is 3;
setting currentPage to 5 and filtering down to 3 visible rows leaves
currentPage at 5 (a page that displays no rows), not 1. -/
theorem pagination_no_clamp :
    (∀ (t : TableField) (h v : String),
       (filterTableText t h v).currentPage = t.currentPage) ∧
    (∀ (t : TableField) (n : Nat), (setRowsPerPage t n).currentPage = 1) ∧
    (∀ t : TableField,
       totalPages t = ((visibleRows t).length + t.rowsPerPage - 1) / t.rowsPerPage) ∧
    totalPages t12 = 3 ∧
    t25Filtered.currentPage = 5 ∧
    totalPages t25Filtered = 1 ∧
    displayedRows t25Filtered = [] := by
  refine ⟨?_, ?_, fun t => rfl, by decide, rfl, by decide, by decide⟩
  · intro t h v
    unfold filterTableText
    dsimp only
    rw [updatePagination_currentPage]
  · intro t n
    unfold setRowsPerPage
    rw [updatePagination_currentPage]

/-- Claim C8 (code_bug): exportToCsv's header line does NOT contain all
configured column headers.  The code slices off the last th believing it to
be the delete column ("Remove delete column"), but the header row has no th
for the delete buttons, so the last configured header (here "Age") is
dropped while every data line still carries all cell values: the export of
a Name/Age table with one row is "Name\nalice,30", whose data line has two
values against one header. -/
theorem exportToCsv_drops_last_header :
    exportToCsv t8 = "Name\nalice,30" ∧
    t8.columns.map Column.header = ["Name", "Age"] ∧
    ¬ exportToCsv t8 = "Name,Age\nalice,30" := by
  refine ⟨rfl, rfl, ?_⟩
  decide

theorem import_foldl (cols : List Column) (headers : List String)
    (ls : List (List String)) (base : TableField) :
    ls.foldl (fun acc line => if line.length == 1 && line.headD "" == "" then acc else { acc with rows := acc.rows ++ [importedRow cols headers line] }) base
      = { base with rows := base.rows ++ (ls.filter (fun line => !(line.length == 1 && line.headD "" == ""))).map (importedRow cols headers) } := by
  induction ls generalizing base with
  | nil =>
      show base = { base with rows := base.rows ++ [] }
      rw [List.append_nil]
  | cons line ls ih =>
      rw [List.foldl_cons, List.filter_cons]
      by_cases h : (line.length == 1 && line.headD "" == "") = true
      · rw [if_pos h, ih, h]
        simp only [Bool.not_true, Bool.false_eq_true, if_false]
      · rw [if_neg h, ih]
        have hb : (line.length == 1 && line.headD "" == "") = false :=
          Bool.not_eq_true _ |>.mp h
        rw [hb]
        simp only [Bool.not_false, if_true, List.map_cons]
        rw [List.append_assoc, List.singleton_append]

theorem importCsv_ok_eq (t : TableField) (text : String) (t1 : TableField)
    (h : importCsv t text = Except.ok t1) :
    t1 = { t with rows := (dataLines text).map (importedRow t.columns (csvHeaders text)) } := by
  unfold importCsv at h
  dsimp only at h
  split at h
  · rw [import_foldl] at h
    injection h with h
    rw [← h]
    dsimp only
    rw [List.nil_append]
    rfl
  · exact Except.noConfusion h

theorem importCsv_error_iff (t : TableField) (text : String) :
    importCsv t text = Except.error "CSV headers do not match table columns"
      ↔ ¬ ((t.columns.map Column.header).all (fun h0 => (csvHeaders text).contains h0) = true) := by
  unfold importCsv
  dsimp only
  have hch : (parsedCsv text).headD [] = csvHeaders text := rfl
  rw [hch]
  constructor
  · intro h
    intro hall
    rw [if_pos hall] at h
    exact Except.noConfusion h
  · intro hall
    rw [if_neg hall]

theorem findIdx?_cols_self (cols : List Column) (j : Nat) (cj : Column)
    (hjl : j < cols.length) (hj : cols[j] = cj)
    (nd : (cols.map Column.header).Nodup) :
    cols.findIdx? (fun col => col.header == cj.header) = some j := by
  rw [List.findIdx?_eq_some_iff_getElem]
  refine ⟨hjl, ?_, ?_⟩
  · rw [hj]
    simp
  · intro j2 hj2
    have hne : ¬ cols[j2].header = cj.header := by
      intro he
      have hj2l : j2 < (cols.map Column.header).length := by
        simpa using lt_trans hj2 hjl
      have hjl2 : j < (cols.map Column.header).length := by
        simpa using hjl
      have hmap : (cols.map Column.header).get ⟨j2, hj2l⟩
          = (cols.map Column.header).get ⟨j, hjl2⟩ := by
        simp only [List.get_eq_getElem, List.getElem_map]
        rw [he, hj]
      rw [List.get_eq_getElem, List.get_eq_getElem, nd.getElem_inj_iff] at hmap
      simp at hmap
      omega
    simpa using hne

theorem fill_go_length (cols : List Column) (line : List String)
    (ps : List (Nat × String)) (cells : List String) :
    (ps.foldl (fun cs p => match cols.findIdx? (fun col => col.header == p.2) with | some j2 => cs.set j2 ((line.get? p.1).getD "") | none => cs) cells).length
      = cells.length := by
  induction ps generalizing cells with
  | nil => rfl
  | cons p ps ih =>
      rw [List.foldl_cons]
      cases hf : cols.findIdx? (fun col => col.header == p.2) with
      | none => rw [ih]
      | some j2 =>
          rw [ih, List.length_set]

theorem fill_go_get? (cols : List Column) (line : List String)
    (hs : List String) (k : Nat) (cells : List String)
    (hlen : cells.length = cols.length)
    (ndh : hs.Nodup) (ndc : (cols.map Column.header).Nodup)
    (j : Nat) (cj : Column) (hj : cols.get? j = some cj) :
    ((hs.enumFrom k).foldl (fun cs p => match cols.findIdx? (fun col => col.header == p.2) with | some j2 => cs.set j2 ((line.get? p.1).getD "") | none => cs) cells)[j]?
      = (match hs.findIdx? (fun h0 => h0 == cj.header) with
         | some i => some ((line.get? (k + i)).getD "")
         | none => cells[j]?) := by
  rw [List.get?_eq_getElem?] at hj
  obtain ⟨hjl, hget⟩ := List.getElem?_eq_some_iff.mp hj
  induction hs generalizing k cells with
  | nil => rfl
  | cons hh hs ih =>
      rw [List.enumFrom_cons, List.foldl_cons]
      dsimp only
      by_cases hhh : (hh == cj.header) = true
      · have hfi : (hh :: hs).findIdx? (fun h0 => h0 == cj.header) = some 0 := by
          rw [List.findIdx?_cons, hhh]
          simp
        rw [hfi]
        have hh_eq : hh = cj.header := eq_of_beq hhh
        have hstep : cols.findIdx? (fun col => col.header == hh) = some j := by
          rw [hh_eq]
          exact findIdx?_cols_self cols j cj hjl hget ndc
        rw [hstep]
        dsimp only
        have hnotin : hs.findIdx? (fun h0 => h0 == cj.header) = none := by
          rw [List.findIdx?_eq_none_iff]
          intro x hx
          rcases List.nodup_cons.mp ndh with ⟨hnotmem, -⟩
          by_contra hxx
          have hxe : x = cj.header := eq_of_beq (by simpa using hxx)
          rw [← hh_eq] at hxe
          exact hnotmem (hxe ▸ hx)
        rw [ih (k + 1) (cells.set j ((line.get? k).getD ""))
          (by rw [List.length_set, hlen]) (List.nodup_cons.mp ndh).2]
        rw [hnotin]
        rw [List.getElem?_set_self (by rw [hlen]; exact hjl)]
        norm_num
      · have hb : (hh == cj.header) = false := Bool.not_eq_true _ |>.mp hhh
        have hfi : (hh :: hs).findIdx? (fun h0 => h0 == cj.header)
            = (hs.findIdx? (fun h0 => h0 == cj.header)).map (fun i => i + 1) := by
          rw [List.findIdx?_cons, hb]
          simp [List.findIdx?_succ]
        rw [hfi]
        cases hf : cols.findIdx? (fun col => col.header == hh) with
        | none =>
            dsimp only
            rw [ih (k + 1) cells hlen (List.nodup_cons.mp ndh).2]
            cases hsf : hs.findIdx? (fun h0 => h0 == cj.header) with
            | none => rfl
            | some i =>
                dsimp only
                have harith : k + 1 + i = k + (i + 1) := by omega
                rw [harith]
                rfl
        | some j2 =>
            have hne : ¬ j2 = j := by
              intro he
              subst he
              obtain ⟨hl2, hp2, -⟩ := List.findIdx?_eq_some_iff_getElem.mp hf
              have hce : cj.header = hh := by
                rw [← hget]
                exact eq_of_beq hp2
              rw [hce] at hb
              simp at hb
            dsimp only
            rw [ih (k + 1) (cells.set j2 ((line.get? k).getD ""))
              (by rw [List.length_set, hlen]) (List.nodup_cons.mp ndh).2]
            cases hsf : hs.findIdx? (fun h0 => h0 == cj.header) with
            | none =>
                dsimp only
                rw [List.getElem?_set_ne hne]
                rfl
            | some i =>
                dsimp only
                have harith : k + 1 + i = k + (i + 1) := by omega
                rw [harith]
                rfl

theorem fillImportedCells_eq_byNameCells (cols : List Column)
    (headers line : List String)
    (ndh : headers.Nodup) (ndc : (cols.map Column.header).Nodup) :
    fillImportedCells cols headers line = byNameCells cols headers line := by
  apply List.ext_getElem?
  intro j
  by_cases hjl : j < cols.length
  · have hj : cols.get? j = some (cols.get ⟨j, hjl⟩) := List.get?_eq_get hjl
    have hfill : fillImportedCells cols headers line
        = (headers.enumFrom 0).foldl (fun cs p => match cols.findIdx? (fun col => col.header == p.2) with | some j2 => cs.set j2 ((line.get? p.1).getD "") | none => cs) (cols.map Column.defaultValue) := rfl
    rw [hfill, fill_go_get? cols line headers 0 (cols.map Column.defaultValue)
      (by rw [List.length_map]) ndh ndc j (cols.get ⟨j, hjl⟩) hj]
    have hby : (byNameCells cols headers line)[j]?
        = some (byNameCell headers line (cols.get ⟨j, hjl⟩)) := by
      unfold byNameCells
      rw [List.getElem?_map]
      rw [List.get?_eq_getElem?] at hj
      rw [hj]
      rfl
    rw [hby]
    unfold byNameCell
    cases hsf : headers.findIdx? (fun h0 => h0 == (cols.get ⟨j, hjl⟩).header) with
    | none =>
        dsimp only
        rw [List.getElem?_map]
        rw [List.get?_eq_getElem?] at hj
        rw [hj]
        rfl
    | some i =>
        dsimp only
        rw [Nat.zero_add]
  · have h1 : (fillImportedCells cols headers line).length = cols.length := by
      have hfill : fillImportedCells cols headers line
          = (headers.enumFrom 0).foldl (fun cs p => match cols.findIdx? (fun col => col.header == p.2) with | some j2 => cs.set j2 ((line.get? p.1).getD "") | none => cs) (cols.map Column.defaultValue) := rfl
      rw [hfill, fill_go_length, List.length_map]
    have h2 : (byNameCells cols headers line).length = cols.length := by
      unfold byNameCells
      rw [List.length_map]
    rw [List.getElem?_eq_none (by omega), List.getElem?_eq_none (by omega)]

theorem contains_iff_mem (l : List String) (a : String) :
    l.contains a = true ↔ a ∈ l :=
  List.elem_iff

theorem mem_setInsert_self (l : List String) (x : String) : x ∈ setInsert l x := by
  unfold setInsert
  by_cases h : l.contains x
  · rw [if_pos h]
    exact (contains_iff_mem l x).mp h
  · rw [if_neg h]
    exact List.mem_append_right _ (List.mem_singleton.mpr rfl)

theorem mem_setInsert_of_mem (l : List String) (x y : String) (h : x ∈ l) :
    x ∈ setInsert l y := by
  unfold setInsert
  by_cases hy : l.contains y
  · rw [if_pos hy]
    exact h
  · rw [if_neg hy]
    exact List.mem_append_left _ h

/-- Claim C7 (confirmed): importCsv fails with the SchemaMismatch error iff
some configured column header is absent from the parsed first line; on any
error the table state is left unchanged (the tbody is cleared only after
validation); on success the rows are replaced entirely by one untagged row
per non-empty subsequent line whose cells are filled by the header-driven
assignment; and that assignment maps values to columns by header name
rather than by position (for duplicate-free headers it equals the by-name
specification mapping byNameCells). -/
theorem importCsv_schema_mismatch :
    (∀ (t : TableField) (text : String),
       ((∃ c ∈ t.columns, ¬ c.header ∈ csvHeaders text)
         ↔ importCsv t text = Except.error "CSV headers do not match table columns") ∧
       (∀ e, importCsv t text = Except.error e →
          applyOp t (TableOp.importText text) = t) ∧
       (∀ t1, importCsv t text = Except.ok t1 →
          t1 = { t with rows := (dataLines text).map (importedRow t.columns (csvHeaders text)) })) ∧
    (∀ (cols : List Column) (headers line : List String),
       headers.Nodup → (cols.map Column.header).Nodup →
       fillImportedCells cols headers line = byNameCells cols headers line) := by
  refine ⟨?_, fillImportedCells_eq_byNameCells⟩
  intro t text
  refine ⟨?_, ?_, fun t1 h => importCsv_ok_eq t text t1 h⟩
  · rw [importCsv_error_iff]
    constructor
    · rintro ⟨c, hc, hn⟩ hall
      rw [List.all_eq_true] at hall
      have h1 := hall c.header (List.mem_map_of_mem Column.header hc)
      exact hn ((contains_iff_mem _ _).mp h1)
    · intro hna
      by_contra hne
      push_neg at hne
      apply hna
      rw [List.all_eq_true]
      intro x hx
      obtain ⟨c, hc, rfl⟩ := List.mem_map.mp hx
      exact (contains_iff_mem _ _).mpr (hne c hc)
  · intro e he
    show (match importCsv t text with | Except.ok t1 => t1 | Except.error _ => t) = t
    rw [he]

/-- Witness for C7: a failed import of a CSV missing the Item header leaves
the table unchanged, and a successful import of a header-permuted CSV
produces exactly the by-name-mapped replacement rows. -/
theorem importCsv_schema_mismatch_witness :
    applyOp t42Deleted (TableOp.importText "Qty\n3") = t42Deleted ∧
    t42Imported = { t42Deleted with rows := (dataLines csvPermuted).map (importedRow t42Deleted.columns (csvHeaders csvPermuted)) } ∧
    fillImportedCells t42Deleted.columns (csvHeaders csvPermuted) ["3", "c"]
      = byNameCells t42Deleted.columns (csvHeaders csvPermuted) ["3", "c"] :=
  ⟨(importCsv_schema_mismatch.1 t42Deleted "Qty\n3").2.1
      "CSV headers do not match table columns" (by rfl),
   (importCsv_schema_mismatch.1 t42Deleted csvPermuted).2.2 t42Imported (by rfl),
   importCsv_schema_mismatch.2 t42Deleted.columns (csvHeaders csvPermuted)
     ["3", "c"] (by decide) (by decide)⟩

/-- Claim C9 (confirmed): deletedIds is monotonically non-decreasing across
the table's lifetime - no embedded operation (add, delete, cell edit,
filter, pagination, import) ever removes an identity from it - and deleting
a row that carries an external identity adds that identity to the set.  In
the scenario, deleting the row tagged "42" makes getValue report deletedIds
== ["42"] while the exported CSV no longer contains that row. -/
theorem deletedIds_monotone :
    (∀ (t : TableField) (op : TableOp) (x : String),
       x ∈ t.deletedIds → x ∈ (applyOp t op).deletedIds) ∧
    (∀ (t : TableField) (i : Nat) (r : TableRow) (id0 : String),
       t.rows.get? i = some r → r.rowId = some id0 →
       id0 ∈ (deleteTableRow t i).deletedIds) ∧
    (tableGetValue t42Deleted).deletedIds = ["42"] ∧
    exportToCsv t42Deleted = "Item\nb,2" := by
  refine ⟨?_, ?_, rfl, rfl⟩
  · intro t op x hx
    cases op with
    | add e => exact hx
    | del i =>
        show x ∈ (deleteTableRow t i).deletedIds
        unfold deleteTableRow
        cases hr : t.rows.get? i with
        | none => exact hx
        | some r =>
            dsimp only
            cases hid : r.rowId with
            | none => exact hx
            | some id0 => exact mem_setInsert_of_mem _ _ _ hx
    | cell i j v =>
        show x ∈ (setCell t i j v).deletedIds
        unfold setCell
        cases hr : t.rows.get? i with
        | none => exact hx
        | some r => exact hx
    | filterText h v =>
        show x ∈ (filterTableText t h v).deletedIds
        unfold filterTableText
        dsimp only
        rw [updatePagination_deletedIds]
        exact hx
    | page i =>
        show x ∈ (clickPage t i).deletedIds
        unfold clickPage
        by_cases hp : 1 ≤ i ∧ i ≤ totalPages t
        · rw [if_pos hp, updatePagination_deletedIds]
          exact hx
        · rw [if_neg hp]
          exact hx
    | perPage n =>
        show x ∈ (setRowsPerPage t n).deletedIds
        unfold setRowsPerPage
        rw [updatePagination_deletedIds]
        exact hx
    | importText text =>
        show x ∈ (match importCsv t text with | Except.ok t1 => t1 | Except.error _ => t).deletedIds
        cases him : importCsv t text with
        | error e => exact hx
        | ok t1 =>
            dsimp only
            rw [importCsv_ok_eq t text t1 him]
            exact hx
  · intro t i r id0 hr hid
    unfold deleteTableRow
    rw [hr]
    dsimp only
    rw [hid]
    exact mem_setInsert_self _ _

/-- Witness for C9: monotonicity applied on the concrete deleted-row table
under an add operation, and the delete handler adding identity "42". -/
theorem deletedIds_monotone_witness :
    "42" ∈ (applyOp t42Deleted (TableOp.add none)).deletedIds ∧
    "42" ∈ (deleteTableRow t42 0).deletedIds :=
  ⟨deletedIds_monotone.1 t42Deleted (TableOp.add none) "42" (by decide),
   deletedIds_monotone.2.1 t42 0
     { rowId := some "42", cells := ["a", "1"], filteredOut := false, pageHidden := false }
     "42" (by rfl) (by rfl)⟩

/-- Claim C10 (confirmed): a successful CSV import leaves deletedIds exactly
as it was - rows discarded by the wholesale replacement, tagged or not, are
never added to the deletion set - and every row created by the import is
untagged; moreover among the embedded operations only the explicit per-row
delete ever changes deletedIds. -/
theorem importCsv_preserves_deletedIds :
    (∀ (t : TableField) (text : String) (t1 : TableField),
       importCsv t text = Except.ok t1 →
       t1.deletedIds = t.deletedIds ∧ ∀ r ∈ t1.rows, r.rowId = none) ∧
    (∀ (t : TableField) (op : TableOp),
       (∀ i, ¬ op = TableOp.del i) →
       (applyOp t op).deletedIds = t.deletedIds) := by
  constructor
  · intro t text t1 h
    rw [importCsv_ok_eq t text t1 h]
    refine ⟨rfl, ?_⟩
    intro r hr
    dsimp only at hr
    obtain ⟨line, -, rfl⟩ := List.mem_map.mp hr
    rfl
  · intro t op hop
    cases op with
    | add e => rfl
    | del i => exact absurd rfl (hop i)
    | cell i j v =>
        show (setCell t i j v).deletedIds = t.deletedIds
        unfold setCell
        cases hr : t.rows.get? i with
        | none => rfl
        | some r => rfl
    | filterText h v =>
        show (filterTableText t h v).deletedIds = t.deletedIds
        unfold filterTableText
        dsimp only
        rw [updatePagination_deletedIds]
    | page i =>
        show (clickPage t i).deletedIds = t.deletedIds
        unfold clickPage
        by_cases hp : 1 ≤ i ∧ i ≤ totalPages t
        · rw [if_pos hp, updatePagination_deletedIds]
        · rw [if_neg hp]
    | perPage n =>
        show (setRowsPerPage t n).deletedIds = t.deletedIds
        unfold setRowsPerPage
        rw [updatePagination_deletedIds]
    | importText text =>
        show (match importCsv t text with | Except.ok t1 => t1 | Except.error _ => t).deletedIds = t.deletedIds
        cases him : importCsv t text with
        | error e => rfl
        | ok t1 =>
            dsimp only
            rw [importCsv_ok_eq t text t1 him]

/-- Witness for C10: the frame property applied to the concrete
header-permuted import and to an add operation. -/
theorem importCsv_preserves_deletedIds_witness :
    (t42Imported.deletedIds = t42Deleted.deletedIds ∧
      ∀ r ∈ t42Imported.rows, r.rowId = none) ∧
    (applyOp t42Deleted (TableOp.add none)).deletedIds = t42Deleted.deletedIds :=
  ⟨importCsv_preserves_deletedIds.1 t42Deleted csvPermuted t42Imported (by rfl),
   importCsv_preserves_deletedIds.2 t42Deleted (TableOp.add none)
     (fun i h => TableOp.noConfusion h)⟩

end WebForm
